import Mathlib

/-!
Verification of the TinyForge fantasy-console host runtime.

This file gives a shallow embedding of the host runtime core of the
TinyForge repository and proves properties of it:

* the fixed-timestep frame scheduler of src/host/main.js (function frame,
  constants DT and MAX_UPDATES), including its input-snapshot commit,
  previous-state rollover, abort handling and update cap;
* the cartridge loader of src/host/main.js (function loadGame) and the
  hot-reload variant of the host main (loadGame with a skipInit option);
* the shared memory-map constants of memory-map.ts and the SDK input
  accessors of src/sdk/input.ts;
* the sprite injector of src/host/sprite-manager.ts (loadSprite,
  loadSpriteSheet, writeSpritesToMemory) and the asset-name parsing of
  asset-loader (extractId, the sheet regex);
* the clearFramebuffer host import of src/host/main.js.

Machine integers are modelled as Nat (bytes are Nat values, 16-bit stores
split into two bytes), the millisecond clock as Rat, memory as a function
from byte addresses to byte values, and guest entry points as functions
from memory to memory together with an abort flag (a thrown exception or
a guest trap is the flag being true).
-/

namespace TinyForge

/-- Byte-addressed view of the 1 MiB WebAssembly.Memory arena:
a map from byte address to byte value. -/
def Mem : Type := ℕ → ℕ

/-- The all-zero arena (WebAssembly memory is zero-initialised). -/
def zeroMem : Mem := fun _ => 0

/-- Store one byte, as DataView.setUint8. -/
def setU8 (m : Mem) (a v : ℕ) : Mem := fun x => if x = a then v else m x

/-- Two-byte little-endian encoding of a signed 16-bit value, as
DataView.setInt16(addr, v, true): the value is reduced mod 2^16 and the
low byte is stored first. -/
def u16ofInt (z : ℤ) : ℕ := (z % 65536).toNat

/-- Store a signed 16-bit value little-endian, as DataView.setInt16. -/
def setI16 (m : Mem) (a : ℕ) (z : ℤ) : Mem :=
  setU8 (setU8 m a (u16ofInt z % 256)) (a + 1) (u16ofInt z / 256)

/-- Store an unsigned 16-bit value little-endian, as DataView.setUint16. -/
def setU16 (m : Mem) (a v : ℕ) : Mem :=
  setU8 (setU8 m a (v % 256)) (a + 1) (v / 256 % 256)

/-- Store an unsigned 32-bit value little-endian, as DataView.setUint32. -/
def setU32 (m : Mem) (a v : ℕ) : Mem :=
  setU8 (setU8 (setU8 (setU8 m a (v % 256)) (a + 1) (v / 256 % 256))
    (a + 2) (v / 65536 % 256)) (a + 3) (v / 16777216 % 256)

/-- Raw device state held in the host variables inputMask, mouseX, mouseY,
mouseButtons of src/host/main.js at the moment of one tick's commit. -/
structure Raw where
  kb : ℕ
  mx : ℤ
  my : ℤ
  mb : ℕ

/-- The input-snapshot commit of the frame function of src/host/main.js
(lines 285-300): current and previous keyboard bytes at 0x0AB000/0x0AB001,
mouse x and y as little-endian i16 at 0x0AB010/0x0AB012, current and
previous mouse-button bytes at 0x0AB014/0x0AB015. -/
def commitMem (m : Mem) (r : Raw) (pk pm : ℕ) : Mem :=
  let m1 := setU8 m 0x0AB000 r.kb
  let m2 := setU8 m1 0x0AB001 pk
  let m3 := setI16 m2 0x0AB010 r.mx
  let m4 := setI16 m3 0x0AB012 r.my
  let m5 := setU8 m4 0x0AB014 r.mb
  setU8 m5 0x0AB015 pm

/-- A guest binding: the three captured entry points. update and draw
return the new arena contents together with an abort flag (true when the
call traps or throws, in which case the host marks the binding halted). -/
structure Guest where
  init : Mem → Mem
  update : Mem → Mem × Bool
  draw : Mem → Mem × Bool

/-- Fixed tick duration DT = 1000 / TICK_HZ with TICK_HZ = 60, in
milliseconds (src/host/main.js). -/
def DT : ℚ := 1000 / 60

/-- Safety cap MAX_UPDATES = 5 on updates per render callback. -/
def MAX_UPDATES : ℕ := 5

/-- Simulation-visible host state threaded through ticks: the global tick
counter (ghost, used to index the raw-input history), the previous-state
variables prevInputMask and prevMouseButtons, and the arena. -/
structure Sim where
  tick : ℕ
  prevMask : ℕ
  prevMouse : ℕ
  mem : Mem

/-- One iteration of the fixed-timestep while loop of frame, without the
accumulator bookkeeping: commit the input snapshot, invoke guest update,
and on normal return roll current input state into the previous-state
variables. On an abort the rollover is skipped (the catch block runs
before the assignments). Returns the abort flag. -/
def tickSim (g : Guest) (raw : ℕ → Raw) (p : Sim) : Sim × Bool :=
  let r := raw p.tick
  let m1 := commitMem p.mem r p.prevMask p.prevMouse
  let res := g.update m1
  if res.2 then ({ p with mem := res.1 }, true)
  else ({ tick := p.tick + 1, prevMask := r.kb, prevMouse := r.mb, mem := res.1 }, false)

/-- The successful-tick transition (ghost abbreviation for iteration). -/
def tickStep (g : Guest) (raw : ℕ → Raw) (p : Sim) : Sim := (tickSim g raw p).1

/-- Full scheduler state: the halted flag hasAborted, the accumulator acc,
and the simulation state. -/
structure Host where
  halted : Bool
  acc : ℚ
  p : Sim

/-- Observable events of one render callback, in order of occurrence:
an input-snapshot commit, a guest update call (with its success flag),
the previous-state rollover, and a guest draw call (with its success
flag). -/
inductive Ev where
  | commit : Ev
  | upd : Bool → Ev
  | rollover : Ev
  | draw : Bool → Ev
deriving DecidableEq

/-- Whether an event is an aborting guest call. -/
def evAborts : Ev → Bool
  | .upd ok => !ok
  | .draw ok => !ok
  | _ => false

/-- Result of running the fixed-timestep while loop. -/
structure LoopOut where
  host : Host
  n : ℕ
  evs : List Ev

/-- The while loop of frame: while acc has at least DT left, the update
budget (fuel, starting at MAX_UPDATES) is not exhausted and the binding is
not halted, run one tick, consume DT from the accumulator and count the
update; an aborting update halts the binding, leaves the accumulator and
the update count unchanged, and breaks out of the loop. -/
def tickLoop (g : Guest) (raw : ℕ → Raw) : ℕ → Host → LoopOut
  | 0, h => ⟨h, 0, []⟩
  | fuel + 1, h =>
    if DT ≤ h.acc ∧ h.halted = false then
      let t := tickSim g raw h.p
      if t.2 then ⟨⟨true, h.acc, t.1⟩, 0, [.commit, .upd false]⟩
      else
        let rest := tickLoop g raw fuel ⟨false, h.acc - DT, t.1⟩
        ⟨rest.host, rest.n + 1, .commit :: .upd true :: .rollover :: rest.evs⟩
    else ⟨h, 0, []⟩

/-- Result of one render callback. -/
structure FrameOut where
  host : Host
  updates : ℕ
  evs : List Ev
  sched : Bool

/-- One render callback (the frame function of src/host/main.js, with the
document assumed visible): return immediately if halted; otherwise add the
elapsed time to the accumulator, run the fixed-timestep loop, reset the
accumulator to zero when the update cap was reached, then, unless halted,
invoke guest draw (an abort from draw halts the binding). The next
callback is scheduled iff the binding is not halted afterwards. -/
def frame (g : Guest) (raw : ℕ → Raw) (h : Host) (d : ℚ) : FrameOut :=
  if h.halted then ⟨h, 0, [], false⟩
  else
    let lo := tickLoop g raw MAX_UPDATES ⟨h.halted, h.acc + d, h.p⟩
    let h3 : Host := if MAX_UPDATES ≤ lo.n then ⟨lo.host.halted, 0, lo.host.p⟩ else lo.host
    if h3.halted then ⟨h3, lo.n, lo.evs, false⟩
    else
      let res := g.draw h3.p.mem
      let h4 : Host := ⟨res.2, h3.acc, { h3.p with mem := res.1 }⟩
      ⟨h4, lo.n, lo.evs ++ [.draw (!res.2)], !res.2⟩

/-- Result of a run of render callbacks. -/
structure RunOut where
  host : Host
  total : ℕ
  capped : Bool

/-- A run of the frame loop over a list of elapsed-time deltas, one per
render callback. total counts guest update invocations that returned;
capped records whether some callback reached the MAX_UPDATES cap. -/
def run (g : Guest) (raw : ℕ → Raw) (h : Host) : List ℚ → RunOut
  | [] => ⟨h, 0, false⟩
  | d :: ds =>
    let f := frame g raw h d
    let rest := run g raw f.host ds
    ⟨rest.host, f.updates + rest.total, (decide (MAX_UPDATES ≤ f.updates) || rest.capped)⟩

/-- The three required guest entry points (src/host/main.js loadGame). -/
def requiredExports : List String := ["init", "update", "draw"]

/-- Outcome of a load attempt. -/
structure LoadOutcome where
  hasAborted : Bool
  missing : List String
  initCalled : Bool
  scheduled : Bool
  mem : Mem

/-- The loadGame function of src/host/main.js: compute the missing
required exports; when some are missing the thrown error (naming them) is
caught, hasAborted is set and no frame callback is scheduled; otherwise
the entry points are captured, init is invoked and the frame loop is
started. Instantiation itself writes nothing to the arena (the shared
memory object is passed in through the import table). -/
def loadGame (exports : List String) (g : Guest) (m : Mem) : LoadOutcome :=
  let missing := requiredExports.filter (fun r => !(exports.contains r))
  if missing.isEmpty then ⟨false, [], true, true, g.init m⟩
  else ⟨true, missing, false, false, m⟩

/-- The loadGame function of the hot-reload variant of the host main (the
skipInit option used by hotReload): identical to loadGame, except that on
success init is skipped when skipInit is true, leaving the arena untouched
(hotReload invokes it with skipInit = true; a cold load uses false). -/
def loadGameHot (exports : List String) (g : Guest) (m : Mem) (skipInit : Bool) :
    LoadOutcome :=
  let missing := requiredExports.filter (fun r => !(exports.contains r))
  if missing.isEmpty then
    ⟨false, [], !skipInit, true, if skipInit then m else g.init m⟩
  else ⟨true, missing, false, false, m⟩

namespace MemoryMap

/-- Display width in pixels (memory-map.ts). -/
def WIDTH : ℕ := 320

/-- Display height in pixels (memory-map.ts). -/
def HEIGHT : ℕ := 240

/-- Framebuffer start address (memory-map.ts). -/
def FB_START : ℕ := 0x000000

/-- Framebuffer size in bytes (memory-map.ts). -/
def FB_SIZE : ℕ := WIDTH * HEIGHT * 4

/-- Keyboard input base address (memory-map.ts). -/
def INPUT_ADDR : ℕ := FB_START + FB_SIZE

/-- Keyboard current button state address (memory-map.ts). -/
def INPUT_BUTTONS_ADDR : ℕ := INPUT_ADDR + 0

/-- Keyboard previous button state address (memory-map.ts). -/
def INPUT_BUTTONS_PREV_ADDR : ℕ := INPUT_ADDR + 1

/-- Mouse state base address (memory-map.ts). -/
def MOUSE_ADDR : ℕ := INPUT_ADDR + 8

/-- Mouse x coordinate address (memory-map.ts). -/
def MOUSE_X_ADDR : ℕ := MOUSE_ADDR + 0

/-- Mouse y coordinate address (memory-map.ts). -/
def MOUSE_Y_ADDR : ℕ := MOUSE_ADDR + 2

/-- Mouse current button state address (memory-map.ts). -/
def MOUSE_BUTTONS_ADDR : ℕ := MOUSE_ADDR + 4

/-- Mouse previous button state address (memory-map.ts). -/
def MOUSE_BUTTONS_PREV_ADDR : ℕ := MOUSE_ADDR + 5

/-- Sprite metadata table base address (memory-map.ts). -/
def SPRITE_METADATA_ADDR : ℕ := MOUSE_ADDR + 8

/-- Sprite metadata entry size in bytes (memory-map.ts). -/
def SPRITE_METADATA_SIZE : ℕ := 8

/-- Sprite pixel data base address (memory-map.ts). -/
def SPRITE_DATA_ADDR : ℕ := SPRITE_METADATA_ADDR + 256 * SPRITE_METADATA_SIZE

/-- Maximum sprite pixel data size (memory-map.ts). -/
def SPRITE_DATA_SIZE : ℕ := 0x20000

/-- Game RAM start address (memory-map.ts). -/
def RAM_START : ℕ := SPRITE_DATA_ADDR + SPRITE_DATA_SIZE

/-- Game RAM size in bytes (memory-map.ts). -/
def RAM_SIZE : ℕ := 0x80000 - RAM_START

end MemoryMap

namespace Button

/-- Button bit flag UP (src/sdk/input.ts). -/
def UP : ℕ := 1

/-- Button bit flag DOWN (src/sdk/input.ts). -/
def DOWN : ℕ := 2

/-- Button bit flag LEFT (src/sdk/input.ts). -/
def LEFT : ℕ := 4

/-- Button bit flag RIGHT (src/sdk/input.ts). -/
def RIGHT : ℕ := 8

/-- Button bit flag A (src/sdk/input.ts). -/
def A : ℕ := 16

/-- Button bit flag B (src/sdk/input.ts). -/
def B : ℕ := 32

/-- Button bit flag START (src/sdk/input.ts). -/
def START : ℕ := 64

end Button

/-- Little-endian signed 16-bit load, as the AssemblyScript load of i16. -/
def loadI16 (m : Mem) (a : ℕ) : ℤ :=
  let u := m a + 256 * m (a + 1)
  if u < 32768 then (u : ℤ) else (u : ℤ) - 65536

/-- buttonDown of src/sdk/input.ts: read the current keyboard byte at
INPUT_BUTTONS_ADDR and test the button bit. -/
def buttonDown (m : Mem) (button : ℕ) : Bool :=
  (m MemoryMap.INPUT_BUTTONS_ADDR) &&& button != 0

/-- buttonPressed of src/sdk/input.ts: rising-edge test from the current
and previous keyboard bytes. -/
def buttonPressed (m : Mem) (button : ℕ) : Bool :=
  let current := m MemoryMap.INPUT_BUTTONS_ADDR
  let prev := m MemoryMap.INPUT_BUTTONS_PREV_ADDR
  (current &&& button != 0) && (prev &&& button == 0)

/-- mouseX of src/sdk/input.ts: signed 16-bit load at MOUSE_X_ADDR. -/
def mouseX (m : Mem) : ℤ := loadI16 m MemoryMap.MOUSE_X_ADDR

/-- mouseY of src/sdk/input.ts: signed 16-bit load at MOUSE_Y_ADDR. -/
def mouseY (m : Mem) : ℤ := loadI16 m MemoryMap.MOUSE_Y_ADDR

/-- mouseDown of src/sdk/input.ts: read the current mouse-button byte at
MOUSE_BUTTONS_ADDR and test the button bit. -/
def mouseDown (m : Mem) (button : ℕ) : Bool :=
  (m MemoryMap.MOUSE_BUTTONS_ADDR) &&& button != 0

/-- mousePressed of src/sdk/input.ts: rising-edge test from the current
and previous mouse-button bytes. -/
def mousePressed (m : Mem) (button : ℕ) : Bool :=
  let current := m MemoryMap.MOUSE_BUTTONS_ADDR
  let prev := m MemoryMap.MOUSE_BUTTONS_PREV_ADDR
  (current &&& button != 0) && (prev &&& button == 0)

/-- A byte buffer (a Uint8ClampedArray): its length and its contents. -/
structure Bytes where
  size : ℕ
  get : ℕ → ℕ

/-- A decoded image as returned by the canvas getImageData pipeline:
pixel dimensions and an RGBA channel accessor (x, y, channel index). -/
structure Image where
  width : ℕ
  height : ℕ
  byte : ℕ → ℕ → ℕ → ℕ

/-- RGBA bytes of the w times h sub-rectangle of an image at (sx, sy),
row-major and 4 bytes per pixel, as produced by drawImage plus
getImageData in sprite-manager. -/
def subimageBytes (img : Image) (sx sy w h : ℕ) : Bytes :=
  ⟨w * h * 4, fun i => img.byte (sx + (i / 4) % w) (sy + (i / 4) / w) (i % 4)⟩

/-- A sprite record held by the SpriteManager sprites map. -/
structure Sprite where
  width : ℕ
  height : ℕ
  data : Bytes

/-- The nested extraction loops of loadSpriteSheet in
src/host/sprite-manager.ts, flattened over the row-major list of grid
positions: each position yields one sprite of size sw times sh cut at
(col * sw, row * sh), with sequential ids; as soon as the running id
exceeds 255 the function returns, dropping all remaining positions. -/
def sheetGo (img : Image) (sw sh : ℕ) : List (ℕ × ℕ) → ℕ → List (ℕ × Sprite)
  | [], _ => []
  | (r, c) :: rest, id =>
    if id ≤ 255 then
      (id, ⟨sw, sh, subimageBytes img (c * sw) (r * sh) sw sh⟩) :: sheetGo img sw sh rest (id + 1)
    else []

/-- Row-major grid positions (row, col) visited by the two nested for
loops of loadSpriteSheet. -/
def sheetPositions (rows cols : ℕ) : List (ℕ × ℕ) :=
  (List.range rows).flatMap fun r => (List.range cols).map fun c => (r, c)

/-- loadSpriteSheet of src/host/sprite-manager.ts: cell size is the
integer division of the image dimensions by the grid dimensions; sprites
are extracted row-major with sequential ids starting at startId. -/
def loadSpriteSheet (img : Image) (startId cols rows : ℕ) : List (ℕ × Sprite) :=
  let sw := img.width / cols
  let sh := img.height / rows
  sheetGo img sw sh (sheetPositions rows cols) startId

/-- The span of leading decimal digits of a character list and the rest. -/
def spanDigits : List Char → List Char × List Char
  | [] => ([], [])
  | c :: rest =>
    if c.isDigit then
      let s := spanDigits rest
      (c :: s.1, s.2)
    else ([], c :: rest)

/-- Decimal value of a digit list (the parseInt of a matched group). -/
def digitsToNat (ds : List Char) : ℕ := ds.foldl (fun n c => n * 10 + (c.toNat - 48)) 0

/-- Basename of a path: the segment after the last slash or backslash
(AssetLoader.extractId splits on both). -/
def basenameChars (cs : List Char) : List Char :=
  cs.foldl (fun acc c => if c = '/' ∨ c = '\\' then [] else acc ++ [c]) []

/-- AssetLoader.extractId: the number formed by the leading digits of the
basename, or none when the name does not start with a digit. -/
def extractId (s : String) : Option ℕ :=
  let ds := (spanDigits (basenameChars s.data)).1
  if ds.isEmpty then none else some (digitsToNat ds)

/-- The sheet-specification test of loadSprite in
src/host/sprite-manager.ts: the regular expression that matches a leading
digit group, a tilde, a digit group, the letter x and a digit group,
returning the three numeric groups. -/
def parseSheetSpec (cs : List Char) : Option (ℕ × ℕ × ℕ) :=
  let s1 := spanDigits cs
  if s1.1.isEmpty then none
  else
    match s1.2 with
    | '~' :: r2 =>
      let s2 := spanDigits r2
      if s2.1.isEmpty then none
      else
        match s2.2 with
        | 'x' :: r4 =>
          let s3 := spanDigits r4
          if s3.1.isEmpty then none
          else some (digitsToNat s1.1, digitsToNat s2.1, digitsToNat s3.1)
        | _ => none
    | _ => none

/-- loadSprite of src/host/sprite-manager.ts, after the image has been
decoded: when the basename matches the sheet pattern the image is split
by loadSpriteSheet with the grid taken from the match groups, otherwise
the whole image becomes a single sprite under the given id. -/
def loadSprite (id : ℕ) (name : String) (img : Image) : List (ℕ × Sprite) :=
  match parseSheetSpec (basenameChars name.data) with
  | some (_, cols, rows) => loadSpriteSheet img id cols rows
  | none => [(id, ⟨img.width, img.height, subimageBytes img 0 0 img.width img.height⟩)]

/-- Metadata-write pass of writeSpritesToMemory in
src/host/sprite-manager.ts: for each sprite, in map order, write width,
height and the running data offset at SPRITE_METADATA_ADDR + id * 8, the
offset advancing by width * height * 4; returns the final offset
(nextDataOffset). -/
def writeMeta : Mem → ℕ → List (ℕ × Sprite) → Mem × ℕ
  | m, off, [] => (m, off)
  | m, off, (id, s) :: rest =>
    let a := MemoryMap.SPRITE_METADATA_ADDR + id * 8
    let m1 := setU32 (setU16 (setU16 m a s.width) (a + 2) s.height) (a + 4) off
    writeMeta m1 (off + s.width * s.height * 4) rest

/-- One Uint8Array.set call of the pixel-write pass: copy a byte buffer
into the arena at the given base address. -/
def writeBytes (m : Mem) (base : ℕ) (d : Bytes) : Mem :=
  fun a => if base ≤ a ∧ a < base + d.size then d.get (a - base) else m a

/-- Pixel-write pass of writeSpritesToMemory: copy each sprite's bytes at
the running write offset from SPRITE_DATA_ADDR, the offset advancing by
the buffer length; the view is not bounded by SPRITE_DATA_SIZE. -/
def writePixels : Mem → ℕ → List (ℕ × Sprite) → Mem
  | m, _, [] => m
  | m, off, (_, s) :: rest =>
    writePixels (writeBytes m (MemoryMap.SPRITE_DATA_ADDR + off) s.data) (off + s.data.size) rest

/-- writeSpritesToMemory of src/host/sprite-manager.ts: run the metadata
pass then the pixel pass, and warn (the returned flag) exactly when the
final data offset exceeds SPRITE_DATA_SIZE; the check happens after all
writes have been performed. -/
def writeSpritesToMemory (sprites : List (ℕ × Sprite)) (m : Mem) : Mem × ℕ × Bool :=
  let meta := writeMeta m 0 sprites
  let m2 := writePixels meta.1 0 sprites
  (m2, meta.2, decide (MemoryMap.SPRITE_DATA_SIZE < meta.2))

/-- Total pixel payload of a sprite list, by buffer lengths. -/
def spritesDataLen : List (ℕ × Sprite) → ℕ
  | [] => 0
  | (_, s) :: rest => s.data.size + spritesDataLen rest

/-- Total pixel payload of a sprite list, by width * height * 4 (the
quantity accumulated into nextDataOffset). -/
def spritesMetaLen : List (ℕ × Sprite) → ℕ
  | [] => 0
  | (_, s) :: rest => s.width * s.height * 4 + spritesMetaLen rest

/-- Byte i of the concatenation of the sprites' pixel buffers. -/
def concatByte : List (ℕ × Sprite) → ℕ → ℕ
  | [], _ => 0
  | (_, s) :: rest, i => if i < s.data.size then s.data.get i else concatByte rest (i - s.data.size)

/-- Display width of the host canvas (src/host/main.js). -/
def WIDTH : ℕ := 320

/-- Display height of the host canvas (src/host/main.js). -/
def HEIGHT : ℕ := 240

/-- The clearFramebuffer host import of src/host/main.js:
fb32.fill(color | 0xFF000000) over the Uint32Array view of the first
WIDTH * HEIGHT * 4 bytes of the arena, stored little-endian. -/
def clearFramebuffer (color : ℕ) (m : Mem) : Mem :=
  let v := color ||| 0xFF000000
  fun a => if a < WIDTH * HEIGHT * 4 then v / 2 ^ (8 * (a % 4)) % 256 else m a

/-- A trivial guest whose entry points leave the arena unchanged and
never abort; used to instantiate proved theorems at concrete inputs. -/
def idGuest : Guest := ⟨fun m => m, fun m => (m, false), fun m => (m, false)⟩

/-- A guest whose draw entry point increments the byte at address
0x050000 of the arena on every call (and never aborts). -/
def drawCountGuest : Guest :=
  ⟨fun m => m, fun m => (m, false), fun m => (setU8 m 0x050000 (m 0x050000 + 1), false)⟩

/-- A constant raw-input history: no keys, mouse outside the canvas. -/
def rawNone : ℕ → Raw := fun _ => ⟨0, -1, -1, 0⟩

/-- The initial simulation state over a zero arena. -/
def sim0 : Sim := ⟨0, 0, 0, zeroMem⟩

/-- The scheduler state right after a cold load: not halted, accumulator
zero. -/
def host0 : Host := ⟨false, 0, sim0⟩

/-- A halted scheduler state over the initial simulation state. -/
def hostHalted : Host := ⟨true, 0, sim0⟩

/-- Three sprites whose total pixel payload is 131076 bytes, four bytes
over SPRITE_DATA_SIZE: two 128 by 128 sprites and one 1 by 1 sprite. -/
def overflowSprites : List (ℕ × Sprite) :=
  [ (0, ⟨128, 128, ⟨65536, fun _ => 1⟩⟩),
    (1, ⟨128, 128, ⟨65536, fun _ => 2⟩⟩),
    (2, ⟨1, 1, ⟨4, fun _ => 99⟩⟩) ]

/-- Effect of a successful draw call on the simulation state: only the
arena changes (the framebuffer region is what draw is meant to write). -/
def drawEff (g : Guest) (p : Sim) : Sim := { p with mem := (g.draw p.mem).1 }

theorem DT_pos : 0 < DT := by norm_num [DT]

theorem tickSim_snd {g : Guest} (hu : ∀ m, (g.update m).2 = false)
    (raw : ℕ → Raw) (p : Sim) : (tickSim g raw p).2 = false := by
  simp [tickSim, hu]

theorem tickSim_fst (g : Guest) (raw : ℕ → Raw) (p : Sim) :
    (tickSim g raw p).1 = tickStep g raw p := rfl

theorem tickLoop_spec (g : Guest) (raw : ℕ → Raw) (hu : ∀ m, (g.update m).2 = false)
    (fuel : ℕ) : ∀ h : Host, h.halted = false →
    (tickLoop g raw fuel h).host.halted = false ∧
    (tickLoop g raw fuel h).host.acc = h.acc - (tickLoop g raw fuel h).n * DT ∧
    (tickLoop g raw fuel h).host.p = (tickStep g raw)^[(tickLoop g raw fuel h).n] h.p ∧
    (tickLoop g raw fuel h).n ≤ fuel ∧
    ((tickLoop g raw fuel h).n < fuel → (tickLoop g raw fuel h).host.acc < DT) ∧
    (0 ≤ h.acc → 0 ≤ (tickLoop g raw fuel h).host.acc) ∧
    (tickLoop g raw fuel h).evs =
      (List.replicate (tickLoop g raw fuel h).n [Ev.commit, Ev.upd true, Ev.rollover]).flatten := by
  induction fuel with
  | zero =>
    intro h hh
    refine ⟨hh, by simp [tickLoop], by simp [tickLoop], Nat.le_refl _, by omega,
      fun hx => by simpa [tickLoop] using hx, by simp [tickLoop]⟩
  | succ fuel ih =>
    intro h hh
    by_cases hc : DT ≤ h.acc
    · have hcond : DT ≤ h.acc ∧ h.halted = false := ⟨hc, hh⟩
      have hab : (tickSim g raw h.p).2 = false := tickSim_snd hu raw h.p
      have hstep :
          tickLoop g raw (fuel + 1) h =
            ⟨(tickLoop g raw fuel ⟨false, h.acc - DT, (tickSim g raw h.p).1⟩).host,
             (tickLoop g raw fuel ⟨false, h.acc - DT, (tickSim g raw h.p).1⟩).n + 1,
             .commit :: .upd true :: .rollover ::
               (tickLoop g raw fuel ⟨false, h.acc - DT, (tickSim g raw h.p).1⟩).evs⟩ := by
        simp only [tickLoop, if_pos hcond, hab]
        simp
      obtain ⟨ih1, ih2, ih3, ih4, ih5, ih6, ih7⟩ :=
        ih ⟨false, h.acc - DT, (tickSim g raw h.p).1⟩ rfl
      rw [hstep]
      dsimp only
      dsimp only at ih2 ih3 ih6
      refine ⟨ih1, ?_, ?_, by omega, ?_, ?_, ?_⟩
      · rw [ih2]
        push_cast
        ring
      · rw [ih3, tickSim_fst g raw, ← Function.iterate_succ_apply]
      · intro hlt
        exact ih5 (by omega)
      · intro _
        exact ih6 (by linarith)
      · rw [ih7, List.replicate_succ]
        simp
    · have hcond : ¬(DT ≤ h.acc ∧ h.halted = false) := fun hx => hc hx.1
      have hstep : tickLoop g raw (fuel + 1) h = ⟨h, 0, []⟩ := by
        simp only [tickLoop, if_neg hcond]
      rw [hstep]
      dsimp only
      exact ⟨hh, by simp, by simp, by omega, fun _ => lt_of_not_le hc,
        fun hx => by simpa using hx, by simp⟩

theorem frame_spec (g : Guest) (raw : ℕ → Raw)
    (hu : ∀ m, (g.update m).2 = false) (hdr : ∀ m, (g.draw m).2 = false)
    (h : Host) (d : ℚ) (hh : h.halted = false) :
    (frame g raw h d).host.halted = false ∧
    (frame g raw h d).host.p = drawEff g ((tickStep g raw)^[(frame g raw h d).updates] h.p) ∧
    (frame g raw h d).updates ≤ MAX_UPDATES ∧
    ((frame g raw h d).updates < MAX_UPDATES →
      (frame g raw h d).host.acc = h.acc + d - (frame g raw h d).updates * DT ∧
      (frame g raw h d).host.acc < DT) ∧
    (0 ≤ h.acc + d → 0 ≤ (frame g raw h d).host.acc) ∧
    (frame g raw h d).evs =
      (List.replicate (frame g raw h d).updates [Ev.commit, Ev.upd true, Ev.rollover]).flatten
        ++ [Ev.draw true] := by
  obtain ⟨l1, l2, l3, l4, l5, l6, l7⟩ :=
    tickLoop_spec g raw hu MAX_UPDATES ⟨h.halted, h.acc + d, h.p⟩ hh
  have hnoth : ¬(h.halted = true) := by simp [hh]
  by_cases hcap : MAX_UPDATES ≤ (tickLoop g raw MAX_UPDATES ⟨h.halted, h.acc + d, h.p⟩).n
  · have hframe :
        frame g raw h d =
          ⟨⟨(g.draw (tickLoop g raw MAX_UPDATES ⟨h.halted, h.acc + d, h.p⟩).host.p.mem).2, 0,
            { (tickLoop g raw MAX_UPDATES ⟨h.halted, h.acc + d, h.p⟩).host.p with
              mem := (g.draw (tickLoop g raw MAX_UPDATES ⟨h.halted, h.acc + d, h.p⟩).host.p.mem).1 }⟩,
           (tickLoop g raw MAX_UPDATES ⟨h.halted, h.acc + d, h.p⟩).n,
           (tickLoop g raw MAX_UPDATES ⟨h.halted, h.acc + d, h.p⟩).evs ++
             [Ev.draw (!(g.draw (tickLoop g raw MAX_UPDATES ⟨h.halted, h.acc + d, h.p⟩).host.p.mem).2)],
           !(g.draw (tickLoop g raw MAX_UPDATES ⟨h.halted, h.acc + d, h.p⟩).host.p.mem).2⟩ := by
      simp only [frame, if_neg hnoth, if_pos hcap, l1]
      simp
    dsimp only at l2 l3 l5 l6
    rw [hframe]
    dsimp only
    refine ⟨hdr _, ?_, l4, ?_, ?_, ?_⟩
    · rw [← l3]
      rfl
    · intro hlt
      exact absurd hlt (not_lt.mpr hcap)
    · intro _
      norm_num
    · rw [l7]
      simp [hdr]
  · have hframe :
        frame g raw h d =
          ⟨⟨(g.draw (tickLoop g raw MAX_UPDATES ⟨h.halted, h.acc + d, h.p⟩).host.p.mem).2,
            (tickLoop g raw MAX_UPDATES ⟨h.halted, h.acc + d, h.p⟩).host.acc,
            { (tickLoop g raw MAX_UPDATES ⟨h.halted, h.acc + d, h.p⟩).host.p with
              mem := (g.draw (tickLoop g raw MAX_UPDATES ⟨h.halted, h.acc + d, h.p⟩).host.p.mem).1 }⟩,
           (tickLoop g raw MAX_UPDATES ⟨h.halted, h.acc + d, h.p⟩).n,
           (tickLoop g raw MAX_UPDATES ⟨h.halted, h.acc + d, h.p⟩).evs ++
             [Ev.draw (!(g.draw (tickLoop g raw MAX_UPDATES ⟨h.halted, h.acc + d, h.p⟩).host.p.mem).2)],
           !(g.draw (tickLoop g raw MAX_UPDATES ⟨h.halted, h.acc + d, h.p⟩).host.p.mem).2⟩ := by
      simp only [frame, if_neg hnoth, if_neg hcap, l1]
      simp
    dsimp only at l2 l3 l5 l6
    rw [hframe]
    dsimp only
    refine ⟨hdr _, ?_, l4, ?_, ?_, ?_⟩
    · rw [← l3]
      rfl
    · intro _
      exact ⟨l2, l5 (lt_of_not_le hcap)⟩
    · intro hnn
      exact l6 hnn
    · rw [l7]
      simp [hdr]

theorem run_spec (g : Guest) (raw : ℕ → Raw)
    (hu : ∀ m, (g.update m).2 = false) (hdr : ∀ m, (g.draw m).2 = false) :
    ∀ (ds : List ℚ) (h : Host), h.halted = false → 0 ≤ h.acc → (∀ d ∈ ds, 0 ≤ d) →
    (run g raw h ds).capped = false →
    (run g raw h ds).host.halted = false ∧
    (run g raw h ds).host.acc = h.acc + ds.sum - (run g raw h ds).total * DT ∧
    0 ≤ (run g raw h ds).host.acc ∧
    (h.acc < DT → (run g raw h ds).host.acc < DT) := by
  intro ds
  induction ds with
  | nil =>
    intro h hh hnn _ _
    refine ⟨hh, by simp [run], by simpa [run] using hnn, fun hx => by simpa [run] using hx⟩
  | cons d ds ih =>
    intro h hh hnn hpos hcap
    have hstep :
        run g raw h (d :: ds) =
          ⟨(run g raw (frame g raw h d).host ds).host,
           (frame g raw h d).updates + (run g raw (frame g raw h d).host ds).total,
           (decide (MAX_UPDATES ≤ (frame g raw h d).updates) ||
             (run g raw (frame g raw h d).host ds).capped)⟩ := rfl
    rw [hstep] at hcap ⊢
    dsimp only at hcap ⊢
    rw [Bool.or_eq_false_iff] at hcap
    obtain ⟨hcap1, hcap2⟩ := hcap
    have hfu : ¬ MAX_UPDATES ≤ (frame g raw h d).updates := by
      simpa using hcap1
    obtain ⟨f1, _, _, f4, f5, _⟩ := frame_spec g raw hu hdr h d hh
    obtain ⟨facc, fltd⟩ := f4 (lt_of_not_le hfu)
    have hd0 : 0 ≤ d := hpos d (List.mem_cons_self d ds)
    have hfnn : 0 ≤ (frame g raw h d).host.acc := f5 (by linarith)
    obtain ⟨r1, r2, r3, r4⟩ :=
      ih (frame g raw h d).host f1 hfnn (fun x hx => hpos x (List.mem_cons_of_mem d hx)) hcap2
    refine ⟨r1, ?_, r3, fun _ => r4 fltd⟩
    rw [r2, facc]
    rw [List.sum_cons]
    push_cast
    ring

theorem run_sim_spec (g : Guest) (raw : ℕ → Raw)
    (hu : ∀ m, (g.update m).2 = false) (hdr : ∀ m, (g.draw m).2 = false)
    (hdm : ∀ m, (g.draw m).1 = m) :
    ∀ (ds : List ℚ) (h : Host), h.halted = false → 0 ≤ h.acc → (∀ d ∈ ds, 0 ≤ d) →
    (run g raw h ds).capped = false →
    (run g raw h ds).host.p = (tickStep g raw)^[(run g raw h ds).total] h.p := by
  have hde : ∀ p : Sim, drawEff g p = p := by
    intro p
    simp [drawEff, hdm]
  intro ds
  induction ds with
  | nil =>
    intro h _ _ _ _
    simp [run]
  | cons d ds ih =>
    intro h hh hnn hpos hcap
    have hstep :
        run g raw h (d :: ds) =
          ⟨(run g raw (frame g raw h d).host ds).host,
           (frame g raw h d).updates + (run g raw (frame g raw h d).host ds).total,
           (decide (MAX_UPDATES ≤ (frame g raw h d).updates) ||
             (run g raw (frame g raw h d).host ds).capped)⟩ := rfl
    rw [hstep] at hcap ⊢
    dsimp only at hcap ⊢
    rw [Bool.or_eq_false_iff] at hcap
    obtain ⟨hcap1, hcap2⟩ := hcap
    have hfu : ¬ MAX_UPDATES ≤ (frame g raw h d).updates := by
      simpa using hcap1
    obtain ⟨f1, f2, _, f4, f5, _⟩ := frame_spec g raw hu hdr h d hh
    have hd0 : 0 ≤ d := hpos d (List.mem_cons_self d ds)
    have hfnn : 0 ≤ (frame g raw h d).host.acc := f5 (by linarith)
    have hr :=
      ih (frame g raw h d).host f1 hfnn (fun x hx => hpos x (List.mem_cons_of_mem d hx)) hcap2
    rw [hr, f2, hde, ← Function.iterate_add_apply]
    rw [Nat.add_comm]

theorem tick_count_unique {S : ℚ} {U1 U2 : ℕ}
    (h1a : 0 ≤ S - U1 * DT) (h1b : S - U1 * DT < DT)
    (h2a : 0 ≤ S - U2 * DT) (h2b : S - U2 * DT < DT) : U1 = U2 := by
  have hDT : (0 : ℚ) < DT := DT_pos
  have ha : (U1 : ℚ) * DT < ((U2 : ℚ) + 1) * DT := by nlinarith
  have hb : (U2 : ℚ) * DT < ((U1 : ℚ) + 1) * DT := by nlinarith
  have ha2 : (U1 : ℚ) < (U2 : ℚ) + 1 := lt_of_mul_lt_mul_right (by linarith) (le_of_lt hDT)
  have hb2 : (U2 : ℚ) < (U1 : ℚ) + 1 := lt_of_mul_lt_mul_right (by linarith) (le_of_lt hDT)
  have ha3 : U1 < U2 + 1 := by exact_mod_cast ha2
  have hb3 : U2 < U1 + 1 := by exact_mod_cast hb2
  omega

/-- C1: for every sequence of nonnegative render-callback deltas summing
to N * DT, if no callback of the run reaches the MAX_UPDATES cap (and the
guest never aborts), then the frame loop started from accumulator 0
invokes guest update exactly N times and leaves the accumulator in
[0, DT). -/
theorem scheduler_exact_tick_count (g : Guest) (raw : ℕ → Raw)
    (hu : ∀ m, (g.update m).2 = false) (hdr : ∀ m, (g.draw m).2 = false)
    (p0 : Sim) (deltas : List ℚ) (N : ℕ)
    (hpos : ∀ d ∈ deltas, 0 ≤ d)
    (hsum : deltas.sum = N * DT)
    (hcap : (run g raw ⟨false, 0, p0⟩ deltas).capped = false) :
    (run g raw ⟨false, 0, p0⟩ deltas).total = N ∧
    0 ≤ (run g raw ⟨false, 0, p0⟩ deltas).host.acc ∧
    (run g raw ⟨false, 0, p0⟩ deltas).host.acc < DT := by
  obtain ⟨-, hacc, hnn, hlt⟩ :=
    run_spec g raw hu hdr deltas ⟨false, 0, p0⟩ rfl (le_refl 0) hpos hcap
  have hlt2 := hlt DT_pos
  rw [hacc, hsum] at hnn hlt2
  have hzs : (0 : ℚ) + (N : ℚ) * DT = (N : ℚ) * DT := by ring
  rw [hzs] at hnn hlt2
  have hU : (run g raw ⟨false, 0, p0⟩ deltas).total = N := by
    refine tick_count_unique (S := (N : ℚ) * DT) hnn hlt2 ?_ ?_
    · simp
    · simpa using DT_pos
  refine ⟨hU, ?_, ?_⟩
  · rw [hacc, hsum, hzs, hU]
    simp
  · rw [hacc, hsum, hzs, hU]
    simpa using DT_pos

/-- C7: within a frame of a non-halted scheduler with a non-aborting
guest, the event trace is exactly, for each tick in order, the input
snapshot commit followed by the guest update call followed by the
previous-state rollover, and then a single draw call; so the snapshot is
committed exactly once per tick, before that tick's update call, and the
rollover happens after update returns and before the next tick's
commit. -/
theorem tick_event_ordering (g : Guest) (raw : ℕ → Raw)
    (hu : ∀ m, (g.update m).2 = false) (hdr : ∀ m, (g.draw m).2 = false)
    (h : Host) (d : ℚ) (hh : h.halted = false) :
    (frame g raw h d).evs =
      (List.replicate (frame g raw h d).updates [Ev.commit, Ev.upd true, Ev.rollover]).flatten
        ++ [Ev.draw true] :=
  (frame_spec g raw hu hdr h d hh).2.2.2.2.2

/-- Witness for tick_event_ordering at a concrete guest, scheduler state
and delta, together with the concrete value of the trace. -/
theorem tick_event_ordering_witness :
    (frame idGuest rawNone host0 DT).evs =
      (List.replicate (frame idGuest rawNone host0 DT).updates
        [Ev.commit, Ev.upd true, Ev.rollover]).flatten ++ [Ev.draw true] ∧
    (frame idGuest rawNone host0 DT).evs =
      [Ev.commit, Ev.upd true, Ev.rollover, Ev.draw true] :=
  ⟨tick_event_ordering idGuest rawNone (fun _ => rfl) (fun _ => rfl) host0 DT rfl,
   by with_unfolding_all decide⟩

/-- Witness for scheduler_exact_tick_count: a single callback whose delta
is exactly one tick duration performs exactly one update and ends with
accumulator 0. -/
theorem scheduler_exact_tick_count_witness :
    ([DT] : List ℚ).sum = ((1 : ℕ) : ℚ) * DT ∧
    (run idGuest rawNone host0 [DT]).total = 1 ∧
    (run idGuest rawNone host0 [DT]).host.acc < DT :=
  ⟨by with_unfolding_all decide,
   (scheduler_exact_tick_count idGuest rawNone (fun _ => rfl) (fun _ => rfl) sim0 [DT] 1
      (by intro x hx; rw [List.mem_singleton] at hx; rw [hx]; exact le_of_lt DT_pos)
      (by with_unfolding_all decide) (by with_unfolding_all decide)).1,
   (scheduler_exact_tick_count idGuest rawNone (fun _ => rfl) (fun _ => rfl) sim0 [DT] 1
      (by intro x hx; rw [List.mem_singleton] at hx; rw [hx]; exact le_of_lt DT_pos)
      (by with_unfolding_all decide) (by with_unfolding_all decide)).2.2⟩

/-- C9 (amended): the simulation is deterministic with respect to render
timing provided the guest's draw leaves the arena unchanged: two runs
with the same guest, the same initial simulation state and the same
per-tick raw-input history, whose delta sequences are nonnegative and
have equal sums, and in which the update cap is never reached and the
guest never aborts, perform the same number of update invocations and end
in identical simulation states (tick counter, previous-input state and
arena contents). -/
theorem render_partition_determinism (g : Guest) (raw : ℕ → Raw)
    (hu : ∀ m, (g.update m).2 = false) (hdr : ∀ m, (g.draw m).2 = false)
    (hdm : ∀ m, (g.draw m).1 = m)
    (p0 : Sim) (d1 d2 : List ℚ)
    (hp1 : ∀ d ∈ d1, 0 ≤ d) (hp2 : ∀ d ∈ d2, 0 ≤ d)
    (hsum : d1.sum = d2.sum)
    (hc1 : (run g raw ⟨false, 0, p0⟩ d1).capped = false)
    (hc2 : (run g raw ⟨false, 0, p0⟩ d2).capped = false) :
    (run g raw ⟨false, 0, p0⟩ d1).total = (run g raw ⟨false, 0, p0⟩ d2).total ∧
    (run g raw ⟨false, 0, p0⟩ d1).host.p = (run g raw ⟨false, 0, p0⟩ d2).host.p := by
  obtain ⟨-, hacc1, hnn1, hlt1⟩ :=
    run_spec g raw hu hdr d1 ⟨false, 0, p0⟩ rfl (le_refl 0) hp1 hc1
  obtain ⟨-, hacc2, hnn2, hlt2⟩ :=
    run_spec g raw hu hdr d2 ⟨false, 0, p0⟩ rfl (le_refl 0) hp2 hc2
  rw [hacc1] at hnn1
  rw [hacc1] at hlt1
  rw [hacc2, ← hsum] at hnn2
  rw [hacc2, ← hsum] at hlt2
  have hz : ∀ U : ℕ, (0 : ℚ) + d1.sum - (U : ℚ) * DT = d1.sum - (U : ℚ) * DT := by
    intro U
    ring
  rw [hz] at hnn1 hnn2
  rw [hz] at hlt1 hlt2
  have hU : (run g raw ⟨false, 0, p0⟩ d1).total = (run g raw ⟨false, 0, p0⟩ d2).total :=
    tick_count_unique hnn1 (hlt1 DT_pos) hnn2 (hlt2 DT_pos)
  refine ⟨hU, ?_⟩
  rw [run_sim_spec g raw hu hdr hdm d1 ⟨false, 0, p0⟩ rfl (le_refl 0) hp1 hc1,
    run_sim_spec g raw hu hdr hdm d2 ⟨false, 0, p0⟩ rfl (le_refl 0) hp2 hc2, hU]

/-- Witness for render_partition_determinism: spending two ticks worth of
elapsed time in two callbacks versus one callback yields the same update
count and the same final simulation state. -/
theorem render_partition_determinism_witness :
    (run idGuest rawNone host0 [DT, DT]).total = (run idGuest rawNone host0 [2 * DT]).total ∧
    (run idGuest rawNone host0 [DT, DT]).host.p = (run idGuest rawNone host0 [2 * DT]).host.p :=
  render_partition_determinism idGuest rawNone (fun _ => rfl) (fun _ => rfl) (fun _ => rfl)
    sim0 [DT, DT] [2 * DT]
    (by intro x hx; rw [List.mem_cons, List.mem_singleton] at hx
        rcases hx with hx | hx <;> rw [hx] <;> exact le_of_lt DT_pos)
    (by intro x hx; rw [List.mem_singleton] at hx; rw [hx]
        have := DT_pos; linarith)
    (by with_unfolding_all decide)
    (by with_unfolding_all decide) (by with_unfolding_all decide)

/-- C9, counterexample to the unamended claim: with a guest whose draw
entry point increments a Guest RAM byte, two delta sequences with equal
sums and equal tick counts (cap never reached) end with different arena
contents, because draw runs once per render callback. -/
theorem render_partition_counterexample :
    ([DT, DT] : List ℚ).sum = ([2 * DT] : List ℚ).sum ∧
    (run drawCountGuest rawNone host0 [DT, DT]).capped = false ∧
    (run drawCountGuest rawNone host0 [2 * DT]).capped = false ∧
    (run drawCountGuest rawNone host0 [DT, DT]).total =
      (run drawCountGuest rawNone host0 [2 * DT]).total ∧
    (run drawCountGuest rawNone host0 [DT, DT]).host.p.mem 0x050000 = 2 ∧
    (run drawCountGuest rawNone host0 [2 * DT]).host.p.mem 0x050000 = 1 := by
  with_unfolding_all decide

theorem tickLoop_cases (g : Guest) (raw : ℕ → Raw) :
    ∀ (fuel : ℕ) (h : Host),
    ((tickLoop g raw fuel h).host.halted = h.halted ∧
      (tickLoop g raw fuel h).evs =
        (List.replicate (tickLoop g raw fuel h).n [Ev.commit, Ev.upd true, Ev.rollover]).flatten) ∨
    ((tickLoop g raw fuel h).host.halted = true ∧
      (tickLoop g raw fuel h).evs =
        (List.replicate (tickLoop g raw fuel h).n [Ev.commit, Ev.upd true, Ev.rollover]).flatten
          ++ [Ev.commit, Ev.upd false]) := by
  intro fuel
  induction fuel with
  | zero =>
    intro h
    left
    simp [tickLoop]
  | succ fuel ih =>
    intro h
    by_cases hc : DT ≤ h.acc ∧ h.halted = false
    · by_cases hab : (tickSim g raw h.p).2
      · right
        have hstep : tickLoop g raw (fuel + 1) h =
            ⟨⟨true, h.acc, (tickSim g raw h.p).1⟩, 0, [.commit, .upd false]⟩ := by
          simp only [tickLoop, if_pos hc, hab]
          simp
        rw [hstep]
        simp
      · have hstep :
            tickLoop g raw (fuel + 1) h =
              ⟨(tickLoop g raw fuel ⟨false, h.acc - DT, (tickSim g raw h.p).1⟩).host,
               (tickLoop g raw fuel ⟨false, h.acc - DT, (tickSim g raw h.p).1⟩).n + 1,
               .commit :: .upd true :: .rollover ::
                 (tickLoop g raw fuel ⟨false, h.acc - DT, (tickSim g raw h.p).1⟩).evs⟩ := by
          simp only [tickLoop, if_pos hc, Bool.not_eq_true] at hab ⊢
          rw [hab]
          simp
        rw [hstep]
        dsimp only
        rcases ih ⟨false, h.acc - DT, (tickSim g raw h.p).1⟩ with ⟨c1, c2⟩ | ⟨c1, c2⟩
        · left
          rw [hc.2]
          refine ⟨c1, ?_⟩
          rw [c2, List.replicate_succ]
          simp
        · right
          refine ⟨c1, ?_⟩
          rw [c2, List.replicate_succ]
          simp
    · left
      have hstep : tickLoop g raw (fuel + 1) h = ⟨h, 0, []⟩ := by
        simp only [tickLoop, if_neg hc]
      rw [hstep]
      simp

theorem mem_good_evs {k : ℕ} {e : Ev}
    (he : e ∈ (List.replicate k [Ev.commit, Ev.upd true, Ev.rollover]).flatten) :
    evAborts e = false := by
  rw [List.mem_flatten] at he
  obtain ⟨l, hl, hel⟩ := he
  rw [List.eq_of_mem_replicate hl] at hel
  rw [List.mem_cons, List.mem_cons, List.mem_singleton] at hel
  rcases hel with hel | hel | hel <;> rw [hel] <;> rfl

/-- C8: a halted binding is absorbing and can be left only through the
loader. First, a frame of a halted scheduler does nothing: no tick is
executed, no event (in particular no update and no draw call) occurs, the
state is unchanged and no further callback is scheduled. Second, within
any single frame an aborting guest call is always the last event, so
neither update nor draw is invoked after the abort that halted the
binding. Third, a successful loadGame clears the halted flag and starts a
new frame loop. -/
theorem halted_is_absorbing :
    (∀ (g : Guest) (raw : ℕ → Raw) (h : Host) (d : ℚ), h.halted = true →
      frame g raw h d = ⟨h, 0, [], false⟩) ∧
    (∀ (g : Guest) (raw : ℕ → Raw) (h : Host) (d : ℚ),
      ((frame g raw h d).evs.dropLast.all fun e => !evAborts e) = true) ∧
    (∀ (exports : List String) (g : Guest) (m : Mem),
      (requiredExports.filter fun r => !(exports.contains r)).isEmpty = true →
      (loadGame exports g m).hasAborted = false ∧ (loadGame exports g m).scheduled = true) := by
  refine ⟨?_, ?_, ?_⟩
  · intro g raw h d hh
    simp [frame, hh]
  · intro g raw h d
    by_cases hh : h.halted
    · simp [frame, hh]
    · rw [Bool.not_eq_true] at hh
      have hnoth : ¬(h.halted = true) := by simp [hh]
      rcases tickLoop_cases g raw MAX_UPDATES ⟨h.halted, h.acc + d, h.p⟩ with ⟨c1, c2⟩ | ⟨c1, c2⟩
      · have hfalse : (tickLoop g raw MAX_UPDATES ⟨h.halted, h.acc + d, h.p⟩).host.halted = false := by
          rw [c1, hh]
        by_cases hcap : MAX_UPDATES ≤ (tickLoop g raw MAX_UPDATES ⟨h.halted, h.acc + d, h.p⟩).n
        · have hframe :
              (frame g raw h d).evs =
                (tickLoop g raw MAX_UPDATES ⟨h.halted, h.acc + d, h.p⟩).evs ++
                  [Ev.draw (!(g.draw (tickLoop g raw MAX_UPDATES ⟨h.halted, h.acc + d, h.p⟩).host.p.mem).2)] := by
            simp only [frame, if_neg hnoth, if_pos hcap, hfalse]
            simp
          rw [hframe, List.dropLast_concat, List.all_eq_true]
          intro e he
          rw [c2] at he
          simp [mem_good_evs he]
        · have hframe :
              (frame g raw h d).evs =
                (tickLoop g raw MAX_UPDATES ⟨h.halted, h.acc + d, h.p⟩).evs ++
                  [Ev.draw (!(g.draw (tickLoop g raw MAX_UPDATES ⟨h.halted, h.acc + d, h.p⟩).host.p.mem).2)] := by
            simp only [frame, if_neg hnoth, if_neg hcap, hfalse]
            simp
          rw [hframe, List.dropLast_concat, List.all_eq_true]
          intro e he
          rw [c2] at he
          simp [mem_good_evs he]
      · have hframe :
            (frame g raw h d).evs =
              (tickLoop g raw MAX_UPDATES ⟨h.halted, h.acc + d, h.p⟩).evs := by
          by_cases hcap : MAX_UPDATES ≤ (tickLoop g raw MAX_UPDATES ⟨h.halted, h.acc + d, h.p⟩).n
          · simp only [frame, if_neg hnoth, if_pos hcap, c1]
            simp
          · simp only [frame, if_neg hnoth, if_neg hcap, c1]
            simp
        rw [hframe, c2]
        rw [show (List.replicate (tickLoop g raw MAX_UPDATES ⟨h.halted, h.acc + d, h.p⟩).n
            [Ev.commit, Ev.upd true, Ev.rollover]).flatten ++ [Ev.commit, Ev.upd false] =
            ((List.replicate (tickLoop g raw MAX_UPDATES ⟨h.halted, h.acc + d, h.p⟩).n
              [Ev.commit, Ev.upd true, Ev.rollover]).flatten ++ [Ev.commit]) ++ [Ev.upd false]
          from by simp]
        rw [List.dropLast_concat, List.all_append, Bool.and_eq_true, List.all_eq_true,
          List.all_eq_true]
        constructor
        · intro e he
          simp [mem_good_evs he]
        · intro e he
          rw [List.mem_singleton] at he
          rw [he]
          rfl
  · intro exports g m hexp
    have hstep : loadGame exports g m = ⟨false, [], true, true, g.init m⟩ := by
      simp only [loadGame]
      rw [if_pos hexp]
    rw [hstep]
    exact ⟨rfl, rfl⟩

/-- Witness for halted_is_absorbing: a frame over a halted scheduler
state returns it unchanged with no events and no rescheduling, and a load
with all three exports present ends not halted. -/
theorem halted_is_absorbing_witness :
    frame idGuest rawNone hostHalted 5 = ⟨hostHalted, 0, [], false⟩ ∧
    (loadGame requiredExports idGuest zeroMem).hasAborted = false :=
  ⟨halted_is_absorbing.1 idGuest rawNone hostHalted 5 rfl,
   (halted_is_absorbing.2.2 requiredExports idGuest zeroMem (by decide)).1⟩

/-- C2: a hot swap (loadGame of the hot-reload host main with skipInit
true, as invoked by hotReload), when the guest binary has the three
required exports, does not invoke the guest's init entry point and
preserves every byte of the Guest RAM region and of the sprite regions of
the arena; with skipInit false (a cold load) init is invoked. -/
theorem hot_swap_preserves_memory (exports : List String) (g : Guest) (m : Mem)
    (hexp : (requiredExports.filter fun r => !(exports.contains r)).isEmpty = true) :
    (loadGameHot exports g m true).initCalled = false ∧
    (∀ a, (MemoryMap.RAM_START ≤ a ∧ a < MemoryMap.RAM_START + MemoryMap.RAM_SIZE) ∨
      (MemoryMap.SPRITE_METADATA_ADDR ≤ a ∧
        a < MemoryMap.SPRITE_DATA_ADDR + MemoryMap.SPRITE_DATA_SIZE) →
      (loadGameHot exports g m true).mem a = m a) ∧
    (loadGameHot exports g m false).initCalled = true := by
  have hhot : loadGameHot exports g m true = ⟨false, [], false, true, m⟩ := by
    simp only [loadGameHot]
    rw [if_pos hexp]
    simp
  have hcold : loadGameHot exports g m false = ⟨false, [], true, true, g.init m⟩ := by
    simp only [loadGameHot]
    rw [if_pos hexp]
    simp
  rw [hhot, hcold]
  exact ⟨rfl, fun a _ => rfl, rfl⟩

/-- Witness for hot_swap_preserves_memory at a concrete export list,
guest and arena, inspecting the first byte of Guest RAM. -/
theorem hot_swap_preserves_memory_witness :
    (loadGameHot requiredExports idGuest zeroMem true).initCalled = false ∧
    (loadGameHot requiredExports idGuest zeroMem true).mem MemoryMap.RAM_START =
      zeroMem MemoryMap.RAM_START :=
  ⟨(hot_swap_preserves_memory requiredExports idGuest zeroMem (by decide)).1,
   (hot_swap_preserves_memory requiredExports idGuest zeroMem (by decide)).2.1
     MemoryMap.RAM_START (Or.inl ⟨le_refl _, by decide⟩)⟩

/-- C5: loading a guest whose instantiated exports lack any of the three
required entry points fails: the load error carries exactly the missing
export names (a nonempty list), init is never invoked and no frame
callback is scheduled, so the scheduler is not started and update and
draw are never invoked for that load attempt. -/
theorem load_missing_exports (exports : List String) (g : Guest) (m : Mem)
    (hmiss : ∃ r ∈ requiredExports, exports.contains r = false) :
    loadGame exports g m =
      ⟨true, requiredExports.filter fun r => !(exports.contains r), false, false, m⟩ ∧
    requiredExports.filter (fun r => !(exports.contains r)) ≠ [] := by
  obtain ⟨r, hr, hcon⟩ := hmiss
  have hcon2 : r ∉ exports := by simpa using hcon
  have hne : requiredExports.filter (fun r => !(exports.contains r)) ≠ [] := by
    intro hempty
    have hmem : r ∈ requiredExports.filter (fun r => !(exports.contains r)) :=
      List.mem_filter.mpr ⟨hr, by simpa using hcon2⟩
    rw [hempty] at hmem
    exact List.not_mem_nil r hmem
  constructor
  · have hne2 : ¬((requiredExports.filter fun r => !(exports.contains r)).isEmpty = true) := by
      simpa [List.isEmpty_iff] using hne
    simp only [loadGame, if_neg hne2]
  · exact hne

/-- Witness for load_missing_exports: a cartridge exporting only init and
update fails with the missing list naming draw. -/
theorem load_missing_exports_witness :
    loadGame ["init", "update"] idGuest zeroMem = ⟨true, ["draw"], false, false, zeroMem⟩ ∧
    (["draw"] : List String) ≠ [] :=
  ⟨(load_missing_exports ["init", "update"] idGuest zeroMem ⟨"draw", by decide, by decide⟩).1,
   by decide⟩

/-- C3, evaluated at the failing input: the SDK reads the input snapshot
through the memory-map.ts constants (keyboard at 0x04B000, mouse at
0x04B008), while the host commit of src/host/main.js writes it at
0x0AB000 and 0x0AB010; the addresses differ, and a guest reading through
the SDK right after a commit does not observe the committed bytes: with
UP held (mask 1) and the mouse at (7, 9) with the left button down,
buttonDown, mouseX and mouseDown all return the values of an untouched
arena. -/
theorem input_address_mismatch :
    MemoryMap.INPUT_BUTTONS_ADDR ≠ 0x0AB000 ∧
    MemoryMap.INPUT_BUTTONS_PREV_ADDR ≠ 0x0AB001 ∧
    MemoryMap.MOUSE_X_ADDR ≠ 0x0AB010 ∧
    MemoryMap.MOUSE_Y_ADDR ≠ 0x0AB012 ∧
    MemoryMap.MOUSE_BUTTONS_ADDR ≠ 0x0AB014 ∧
    MemoryMap.MOUSE_BUTTONS_PREV_ADDR ≠ 0x0AB015 ∧
    (commitMem zeroMem ⟨1, 7, 9, 1⟩ 0 0) 0x0AB000 = 1 ∧
    buttonDown (commitMem zeroMem ⟨1, 7, 9, 1⟩ 0 0) Button.UP = false ∧
    mouseX (commitMem zeroMem ⟨1, 7, 9, 1⟩ 0 0) = 0 ∧
    mouseDown (commitMem zeroMem ⟨1, 7, 9, 1⟩ 0 0) 1 = false := by
  decide

theorem writePixels_apply (l : List (ℕ × Sprite)) : ∀ (m : Mem) (off a : ℕ),
    writePixels m off l a =
      if MemoryMap.SPRITE_DATA_ADDR + off ≤ a ∧
          a < MemoryMap.SPRITE_DATA_ADDR + off + spritesDataLen l then
        concatByte l (a - (MemoryMap.SPRITE_DATA_ADDR + off))
      else m a := by
  induction l with
  | nil =>
    intro m off a
    have h0 : spritesDataLen ([] : List (ℕ × Sprite)) = 0 := rfl
    rw [show writePixels m off [] = m from rfl, h0, if_neg (by omega)]
  | cons hd rest ih =>
    obtain ⟨id, s⟩ := hd
    intro m off a
    rw [show writePixels m off ((id, s) :: rest) =
        writePixels (writeBytes m (MemoryMap.SPRITE_DATA_ADDR + off) s.data)
          (off + s.data.size) rest from rfl]
    rw [ih]
    have hlen : spritesDataLen ((id, s) :: rest) = s.data.size + spritesDataLen rest := rfl
    rw [hlen]
    have hcb : concatByte ((id, s) :: rest) (a - (MemoryMap.SPRITE_DATA_ADDR + off)) =
        if a - (MemoryMap.SPRITE_DATA_ADDR + off) < s.data.size then
          s.data.get (a - (MemoryMap.SPRITE_DATA_ADDR + off))
        else concatByte rest (a - (MemoryMap.SPRITE_DATA_ADDR + off) - s.data.size) := rfl
    rw [hcb]
    rw [show writeBytes m (MemoryMap.SPRITE_DATA_ADDR + off) s.data a =
        if MemoryMap.SPRITE_DATA_ADDR + off ≤ a ∧
            a < MemoryMap.SPRITE_DATA_ADDR + off + s.data.size then
          s.data.get (a - (MemoryMap.SPRITE_DATA_ADDR + off))
        else m a from rfl]
    split_ifs <;> first | rfl | (congr 1; omega)

theorem writeMeta_snd (l : List (ℕ × Sprite)) : ∀ (m : Mem) (off : ℕ),
    (writeMeta m off l).2 = off + spritesMetaLen l := by
  induction l with
  | nil =>
    intro m off
    rw [show (writeMeta m off []).2 = off from rfl,
      show spritesMetaLen ([] : List (ℕ × Sprite)) = 0 from rfl]
    omega
  | cons hd rest ih =>
    obtain ⟨id, s⟩ := hd
    intro m off
    rw [show writeMeta m off ((id, s) :: rest) =
        writeMeta (setU32 (setU16 (setU16 m (MemoryMap.SPRITE_METADATA_ADDR + id * 8) s.width)
            (MemoryMap.SPRITE_METADATA_ADDR + id * 8 + 2) s.height)
          (MemoryMap.SPRITE_METADATA_ADDR + id * 8 + 4) off)
          (off + s.width * s.height * 4) rest from rfl]
    rw [ih, show spritesMetaLen ((id, s) :: rest) =
      s.width * s.height * 4 + spritesMetaLen rest from rfl]
    omega

theorem metaLen_eq_dataLen (l : List (ℕ × Sprite))
    (hwh : ∀ q ∈ l, q.2.data.size = q.2.width * q.2.height * 4) :
    spritesMetaLen l = spritesDataLen l := by
  induction l with
  | nil => rfl
  | cons hd rest ih =>
    obtain ⟨id, s⟩ := hd
    have hs : s.data.size = s.width * s.height * 4 := hwh (id, s) (List.mem_cons_self _ _)
    rw [show spritesMetaLen ((id, s) :: rest) =
        s.width * s.height * 4 + spritesMetaLen rest from rfl,
      show spritesDataLen ((id, s) :: rest) = s.data.size + spritesDataLen rest from rfl,
      ih (fun q hq => hwh q (List.mem_cons_of_mem _ hq)), hs]

theorem writeMeta_keeps_high (l : List (ℕ × Sprite)) : ∀ (m : Mem) (off a : ℕ),
    (∀ q ∈ l, q.1 < 256) → MemoryMap.SPRITE_DATA_ADDR ≤ a →
    (writeMeta m off l).1 a = m a := by
  induction l with
  | nil =>
    intro m off a _ _
    rfl
  | cons hd rest ih =>
    obtain ⟨id, s⟩ := hd
    intro m off a hid ha
    rw [show writeMeta m off ((id, s) :: rest) =
        writeMeta (setU32 (setU16 (setU16 m (MemoryMap.SPRITE_METADATA_ADDR + id * 8) s.width)
            (MemoryMap.SPRITE_METADATA_ADDR + id * 8 + 2) s.height)
          (MemoryMap.SPRITE_METADATA_ADDR + id * 8 + 4) off)
          (off + s.width * s.height * 4) rest from rfl]
    rw [ih _ _ _ (fun q hq => hid q (List.mem_cons_of_mem _ hq)) ha]
    have hidlt : id < 256 := hid (id, s) (List.mem_cons_self _ _)
    have hD : MemoryMap.SPRITE_DATA_ADDR = MemoryMap.SPRITE_METADATA_ADDR + 2048 := by
      norm_num [MemoryMap.SPRITE_DATA_ADDR, MemoryMap.SPRITE_METADATA_SIZE]
    simp only [setU32, setU16, setU8]
    split_ifs <;> first | rfl | (exfalso; omega)

/-- C4 (amended): when the total sprite pixel payload exceeds
SPRITE_DATA_SIZE (and every id is in range and every buffer has its
width * height * 4 bytes, as getImageData produces), writeSpritesToMemory
emits the overflow warning and returns normally, but drops nothing: the
pixel bytes of every sprite, including the excess, are written
sequentially from SPRITE_DATA_ADDR — so the bytes past the Sprite Pixel
Store capacity land in the region above it — and only addresses beyond
the written span are left untouched by the pixel pass. -/
theorem sprite_overflow_amended (sprites : List (ℕ × Sprite)) (m : Mem)
    (hid : ∀ q ∈ sprites, q.1 < 256)
    (hwh : ∀ q ∈ sprites, q.2.data.size = q.2.width * q.2.height * 4)
    (hover : MemoryMap.SPRITE_DATA_SIZE < spritesDataLen sprites) :
    (writeSpritesToMemory sprites m).2.2 = true ∧
    (∀ a, MemoryMap.SPRITE_DATA_ADDR ≤ a →
      a < MemoryMap.SPRITE_DATA_ADDR + spritesDataLen sprites →
      (writeSpritesToMemory sprites m).1 a =
        concatByte sprites (a - MemoryMap.SPRITE_DATA_ADDR)) ∧
    (∀ a, MemoryMap.SPRITE_DATA_ADDR + spritesDataLen sprites ≤ a →
      (writeSpritesToMemory sprites m).1 a = m a) := by
  have hmem : (writeSpritesToMemory sprites m).1 =
      writePixels (writeMeta m 0 sprites).1 0 sprites := rfl
  have hwarn : (writeSpritesToMemory sprites m).2.2 =
      decide (MemoryMap.SPRITE_DATA_SIZE < (writeMeta m 0 sprites).2) := rfl
  refine ⟨?_, ?_, ?_⟩
  · rw [hwarn, writeMeta_snd, metaLen_eq_dataLen sprites hwh]
    simpa using hover
  · intro a h1 h2
    rw [hmem, writePixels_apply, if_pos (by omega)]
    congr 1
  · intro a h1
    rw [hmem, writePixels_apply, if_neg (by omega)]
    exact writeMeta_keeps_high sprites m 0 a hid (by omega)

/-- C4, counterexample to the claim as stated: a sprite list whose
payload is four bytes over capacity is written in full — the byte of the
last sprite lands at SPRITE_DATA_ADDR + SPRITE_DATA_SIZE, outside the
Sprite Pixel Store region, changing an arena byte the claim says is never
written; the injector only warns. -/
theorem sprite_overflow_counterexample :
    MemoryMap.SPRITE_DATA_SIZE < (writeSpritesToMemory overflowSprites zeroMem).2.1 ∧
    (writeSpritesToMemory overflowSprites zeroMem).2.2 = true ∧
    (writeSpritesToMemory overflowSprites zeroMem).1
      (MemoryMap.SPRITE_DATA_ADDR + MemoryMap.SPRITE_DATA_SIZE) = 99 ∧
    zeroMem (MemoryMap.SPRITE_DATA_ADDR + MemoryMap.SPRITE_DATA_SIZE) = 0 := by
  decide

/-- Witness for sprite_overflow_amended at the concrete overflowing
sprite list: the warning fires and the first overflow byte is the first
byte of the third sprite's buffer. -/
theorem sprite_overflow_amended_witness :
    (writeSpritesToMemory overflowSprites zeroMem).2.2 = true ∧
    (writeSpritesToMemory overflowSprites zeroMem).1
        (MemoryMap.SPRITE_DATA_ADDR + 131072) = concatByte overflowSprites 131072 :=
  ⟨(sprite_overflow_amended overflowSprites zeroMem (by decide) (by decide) (by decide)).1,
   by
     have h := (sprite_overflow_amended overflowSprites zeroMem (by decide) (by decide)
       (by decide)).2.1 (MemoryMap.SPRITE_DATA_ADDR + 131072) (by omega) (by decide)
     rw [h]
     congr 1⟩

/-- C6: a sheet asset named 5~3x2-x.png over any decoded image yields
exactly six sprite records with ids 5 through 10, each of width
floor(width / 3) and height floor(height / 2), assigned row-major over
the 3-column by 2-row grid (left-to-right within a row, rows
top-to-bottom); the leading digits give the asset id 5. -/
theorem sheet_asset_grid (img : Image) :
    extractId "5~3x2-x.png" = some 5 ∧
    loadSprite 5 "5~3x2-x.png" img =
      [ (5, ⟨img.width / 3, img.height / 2,
          subimageBytes img 0 0 (img.width / 3) (img.height / 2)⟩),
        (6, ⟨img.width / 3, img.height / 2,
          subimageBytes img (img.width / 3) 0 (img.width / 3) (img.height / 2)⟩),
        (7, ⟨img.width / 3, img.height / 2,
          subimageBytes img (2 * (img.width / 3)) 0 (img.width / 3) (img.height / 2)⟩),
        (8, ⟨img.width / 3, img.height / 2,
          subimageBytes img 0 (img.height / 2) (img.width / 3) (img.height / 2)⟩),
        (9, ⟨img.width / 3, img.height / 2,
          subimageBytes img (img.width / 3) (img.height / 2) (img.width / 3) (img.height / 2)⟩),
        (10, ⟨img.width / 3, img.height / 2,
          subimageBytes img (2 * (img.width / 3)) (img.height / 2) (img.width / 3)
            (img.height / 2)⟩) ] := by
  constructor
  · decide
  · have hparse : parseSheetSpec (basenameChars "5~3x2-x.png".data) = some (5, 3, 2) := by
      decide
    have hpos : sheetPositions 2 3 = [(0, 0), (0, 1), (0, 2), (1, 0), (1, 1), (1, 2)] := by
      decide
    rw [show loadSprite 5 "5~3x2-x.png" img =
        (match parseSheetSpec (basenameChars "5~3x2-x.png".data) with
          | some (_, cols, rows) => loadSpriteSheet img 5 cols rows
          | none => [(5, ⟨img.width, img.height,
              subimageBytes img 0 0 img.width img.height⟩)]) from rfl]
    rw [hparse]
    rw [show (match some ((5 : ℕ), (3 : ℕ), (2 : ℕ)) with
        | some (_, cols, rows) => loadSpriteSheet img 5 cols rows
        | none => [((5 : ℕ), (⟨img.width, img.height,
            subimageBytes img 0 0 img.width img.height⟩ : Sprite))]) =
      loadSpriteSheet img 5 3 2 from rfl]
    unfold loadSpriteSheet
    rw [hpos]
    simp only [sheetGo]
    norm_num

theorem lor_mask_low (c : ℕ) : (c ||| 0xFF000000) % 16777216 = c % 16777216 := by
  rw [show (16777216 : ℕ) = 2 ^ 24 from by norm_num]
  apply Nat.eq_of_testBit_eq
  intro i
  rw [Nat.testBit_mod_two_pow, Nat.testBit_mod_two_pow, Nat.testBit_or]
  rw [show (0xFF000000 : ℕ) = 255 <<< 24 from by norm_num [Nat.shiftLeft_eq]]
  rw [Nat.testBit_shiftLeft]
  by_cases h : i < 24
  · have h2 : ¬(24 ≤ i) := by omega
    simp [h, h2]
  · simp [h]

theorem lor_mask_alpha (c : ℕ) : (c ||| 0xFF000000) / 16777216 % 256 = 255 := by
  rw [show (16777216 : ℕ) = 2 ^ 24 from by norm_num,
    show (256 : ℕ) = 2 ^ 8 from by norm_num,
    show (255 : ℕ) = 2 ^ 8 - 1 from by norm_num]
  apply Nat.eq_of_testBit_eq
  intro i
  rw [← Nat.shiftRight_eq_div_pow, Nat.testBit_mod_two_pow, Nat.testBit_shiftRight,
    Nat.testBit_or, Nat.testBit_two_pow_sub_one]
  rw [show (0xFF000000 : ℕ) = (2 ^ 8 - 1) <<< 24 from by norm_num [Nat.shiftLeft_eq]]
  rw [Nat.testBit_shiftLeft, Nat.testBit_two_pow_sub_one]
  by_cases h : i < 8
  · have h2 : 24 ≤ 24 + i := Nat.le_add_right 24 i
    have h3 : 24 + i - 24 = i := by omega
    simp [h, h2, h3]
  · simp [h]

theorem mod_of_lor_low (c k : ℕ) (hk : k ∣ 16777216) :
    (c ||| 0xFF000000) % k = c % k := by
  calc (c ||| 0xFF000000) % k = (c ||| 0xFF000000) % 16777216 % k :=
        (Nat.mod_mod_of_dvd _ hk).symm
    _ = c % 16777216 % k := by rw [lor_mask_low]
    _ = c % k := Nat.mod_mod_of_dvd _ hk

theorem div_mod_byte1 (x : ℕ) : x / 256 % 256 = x % 65536 / 256 := by
  calc x / 256 % 256 = x % (256 * 256) / 256 := (Nat.mod_mul_right_div_self x 256 256).symm
    _ = x % 65536 / 256 := by norm_num

theorem div_mod_byte2 (x : ℕ) : x / 65536 % 256 = x % 16777216 / 65536 := by
  calc x / 65536 % 256 = x % (65536 * 256) / 65536 :=
        (Nat.mod_mul_right_div_self x 65536 256).symm
    _ = x % 16777216 / 65536 := by norm_num

/-- C10: the clearFramebuffer host import fills every framebuffer pixel
with color OR 0xFF000000: for every pixel index i of the framebuffer, the
alpha byte (byte 3) of pixel i is 255 regardless of the alpha bits of the
guest-supplied color, and bytes 0, 1 and 2 equal the corresponding bytes
of the supplied color. -/
theorem clear_framebuffer_fills (color : ℕ) (m : Mem) (i : ℕ) (hi : i < WIDTH * HEIGHT) :
    clearFramebuffer color m (4 * i) = color % 256 ∧
    clearFramebuffer color m (4 * i + 1) = color / 256 % 256 ∧
    clearFramebuffer color m (4 * i + 2) = color / 65536 % 256 ∧
    clearFramebuffer color m (4 * i + 3) = 255 := by
  have hWH : WIDTH * HEIGHT = 76800 := by norm_num [WIDTH, HEIGHT]
  rw [hWH] at hi
  have hb : WIDTH * HEIGHT * 4 = 307200 := by norm_num [WIDTH, HEIGHT]
  have h0 : (4 * i) % 4 = 0 := by omega
  have h1 : (4 * i + 1) % 4 = 1 := by omega
  have h2 : (4 * i + 2) % 4 = 2 := by omega
  have h3 : (4 * i + 3) % 4 = 3 := by omega
  refine ⟨?_, ?_, ?_, ?_⟩
  · rw [show clearFramebuffer color m (4 * i) =
        if 4 * i < WIDTH * HEIGHT * 4 then
          (color ||| 0xFF000000) / 2 ^ (8 * (4 * i % 4)) % 256 else m (4 * i) from rfl]
    rw [hb, if_pos (by omega), h0]
    norm_num
    exact mod_of_lor_low color 256 (by norm_num)
  · rw [show clearFramebuffer color m (4 * i + 1) =
        if 4 * i + 1 < WIDTH * HEIGHT * 4 then
          (color ||| 0xFF000000) / 2 ^ (8 * ((4 * i + 1) % 4)) % 256 else m (4 * i + 1) from rfl]
    rw [hb, if_pos (by omega), h1]
    norm_num
    rw [div_mod_byte1, div_mod_byte1, mod_of_lor_low color 65536 (by norm_num)]
  · rw [show clearFramebuffer color m (4 * i + 2) =
        if 4 * i + 2 < WIDTH * HEIGHT * 4 then
          (color ||| 0xFF000000) / 2 ^ (8 * ((4 * i + 2) % 4)) % 256 else m (4 * i + 2) from rfl]
    rw [hb, if_pos (by omega), h2]
    norm_num
    rw [div_mod_byte2, div_mod_byte2, lor_mask_low]
  · rw [show clearFramebuffer color m (4 * i + 3) =
        if 4 * i + 3 < WIDTH * HEIGHT * 4 then
          (color ||| 0xFF000000) / 2 ^ (8 * ((4 * i + 3) % 4)) % 256 else m (4 * i + 3) from rfl]
    rw [hb, if_pos (by omega), h3]
    norm_num
    exact lor_mask_alpha color

/-- Witness for clear_framebuffer_fills at pixel 0 of a concrete color
with zero alpha bits: the alpha byte reads back 255 and the blue, green
and red bytes read back those of the color. -/
theorem clear_framebuffer_fills_witness :
    (0 : ℕ) < WIDTH * HEIGHT ∧
    clearFramebuffer 0x00123456 zeroMem 3 = 255 ∧
    clearFramebuffer 0x00123456 zeroMem 0 = 0x56 :=
  ⟨by norm_num [WIDTH, HEIGHT],
   (clear_framebuffer_fills 0x00123456 zeroMem 0 (by norm_num [WIDTH, HEIGHT])).2.2.2,
   (clear_framebuffer_fills 0x00123456 zeroMem 0 (by norm_num [WIDTH, HEIGHT])).1⟩

end TinyForge
